import Mathlib

/-!
Verification of the clone-detection server (repository `clone`).

The repository contains two variants of the same Express server:
* `src/backend/server.js` — scores suspects with the external `string-similarity`
  library, gates the WHOIS lookup on the similarity threshold, and caches WHOIS
  results in a `Map`;
* `src/unnamed/part_000` — scores suspects with its own `levenshteinDistance`
  function, performs the WHOIS lookup unconditionally, and does not cache.

Domains and WHOIS messages are modelled as `List Char`; JS numbers are modelled
as exact rationals.
-/

namespace CloneDetect

/-- Fuel-indexed Levenshtein recurrence.  `levFuel n a b` computes, for
sufficient fuel `n`, the value tabulated by the `matrix` dynamic program of
`levenshteinDistance` (part_000 lines 93–105): cell `(i, j)` of that matrix
holds the edit distance between the length-`i` head of `b` and the
length-`j` head of `a`; equal characters take the diagonal cell, otherwise
`1 + min(diag, left, up)` (line 102).  The fuel only makes the recursion
structural; `lev` below instantiates it with enough fuel. -/
def levFuel : Nat → List Char → List Char → Nat
  | _, [], ys => ys.length
  | _, x :: xs, [] => (x :: xs).length
  | 0, _, _ => 0
  | n + 1, x :: xs, y :: ys =>
    if x = y then levFuel n xs ys
    else 1 + min (levFuel n xs ys) (min (levFuel n xs (y :: ys)) (levFuel n (x :: xs) ys))

/-- Levenshtein edit distance between two character lists, the value read at
`matrix[b.length][a.length]` in part_000 line 107. -/
def lev (a b : List Char) : Nat := levFuel (a.length + b.length) a b

theorem levFuel_step : ∀ n (a b : List Char),
    a.length + b.length ≤ n → levFuel n a b = levFuel (n + 1) a b := by
  intro n
  induction n with
  | zero =>
    intro a b h
    cases a with
    | nil => simp only [levFuel]
    | cons x xs =>
      cases b with
      | nil => simp only [levFuel]
      | cons y ys => simp only [List.length_cons] at h; omega
  | succ n ih =>
    intro a b h
    cases a with
    | nil => simp only [levFuel]
    | cons x xs =>
      cases b with
      | nil => simp only [levFuel]
      | cons y ys =>
        simp only [List.length_cons] at h
        simp only [levFuel]
        rw [← ih xs ys (by omega), ← ih xs (y :: ys) (by simp only [List.length_cons]; omega),
            ← ih (x :: xs) ys (by simp only [List.length_cons]; omega)]

theorem levFuel_eq_lev (a b : List Char) : ∀ n, a.length + b.length ≤ n → levFuel n a b = lev a b := by
  intro n
  induction n with
  | zero =>
    intro h
    have h0 : a.length + b.length = 0 := Nat.le_zero.mp h
    show levFuel 0 a b = levFuel (a.length + b.length) a b
    rw [h0]
  | succ n ih =>
    intro h
    rcases Nat.lt_or_ge n (a.length + b.length) with hlt | hge
    · have hs : a.length + b.length = n + 1 := Nat.le_antisymm h hlt
      show levFuel (n + 1) a b = levFuel (a.length + b.length) a b
      rw [hs]
    · rw [← levFuel_step n a b hge]
      exact ih hge

theorem lev_nil_left (b : List Char) : lev [] b = b.length := by
  simp only [lev, levFuel]

theorem lev_nil_right (a : List Char) : lev a [] = a.length := by
  cases a <;> simp only [lev, levFuel, List.length_nil]

theorem lev_cons_cons (x y : Char) (xs ys : List Char) :
    lev (x :: xs) (y :: ys) =
      if x = y then lev xs ys
      else 1 + min (lev xs ys) (min (lev xs (y :: ys)) (lev (x :: xs) ys)) := by
  show levFuel ((x :: xs).length + (y :: ys).length) (x :: xs) (y :: ys) = _
  have hL : (x :: xs).length + (y :: ys).length = (xs.length + 1 + ys.length) + 1 := by
    simp only [List.length_cons]; omega
  rw [hL]
  simp only [levFuel]
  rw [levFuel_eq_lev xs ys _ (by omega),
      levFuel_eq_lev xs (y :: ys) _ (by simp only [List.length_cons]; omega),
      levFuel_eq_lev (x :: xs) ys _ (by simp only [List.length_cons]; omega)]

theorem lev_self (a : List Char) : lev a a = 0 := by
  induction a with
  | nil => simp [lev_nil_left]
  | cons x xs ih => rw [lev_cons_cons]; simp [ih]

theorem lev_symm_aux : ∀ n (a b : List Char), a.length + b.length ≤ n → lev a b = lev b a := by
  intro n
  induction n with
  | zero =>
    intro a b h
    cases a with
    | nil =>
      cases b with
      | nil => rfl
      | cons y ys => simp only [List.length_cons] at h; omega
    | cons x xs => simp only [List.length_cons] at h; omega
  | succ n ih =>
    intro a b h
    cases a with
    | nil =>
      cases b with
      | nil => rfl
      | cons y ys => rw [lev_nil_left, lev_nil_right]
    | cons x xs =>
      cases b with
      | nil => rw [lev_nil_left, lev_nil_right]
      | cons y ys =>
        simp only [List.length_cons] at h
        rw [lev_cons_cons, lev_cons_cons]
        rcases eq_or_ne x y with hxy | hxy
        · subst hxy
          rw [if_pos rfl, if_pos rfl, ih xs ys (by omega)]
        · rw [if_neg hxy, if_neg (Ne.symm hxy)]
          rw [ih xs ys (by omega), ih xs (y :: ys) (by simp only [List.length_cons]; omega),
              ih (x :: xs) ys (by simp only [List.length_cons]; omega)]
          omega

theorem lev_symm (a b : List Char) : lev a b = lev b a :=
  lev_symm_aux (a.length + b.length) a b le_rfl

/-- levenshteinDistance (part_000 lines 89–108).  Despite its name the JS
function returns a similarity percentage (line 107); an empty argument,
however, short-circuits to the OTHER argument's raw length (lines 90–91). -/
def levenshteinDistance (a b : List Char) : ℚ :=
  if a.length = 0 then (b.length : ℚ)
  else if b.length = 0 then (a.length : ℚ)
  else (1 - (lev a b : ℚ) / ((max a.length b.length : ℕ) : ℚ)) * 100

theorem levenshteinDistance_formula (a b : List Char) (ha : a ≠ []) (hb : b ≠ []) :
    levenshteinDistance a b = (1 - (lev a b : ℚ) / ((max a.length b.length : ℕ) : ℚ)) * 100 := by
  simp [levenshteinDistance, List.length_eq_zero, ha, hb]

/-- Scheme-repair step of extractMainDomain (server.js lines 25–27, part_000
lines 21–23): an input not starting with "http://" or "https://" gets
"https://" prepended before parsing. -/
def withScheme (inputUrl : List Char) : List Char :=
  if inputUrl.take 7 = "http://".toList ∨ inputUrl.take 8 = "https://".toList then inputUrl
  else "https://".toList ++ inputUrl

/-- Authority component of a URL whose text begins with "http://" or
"https://", as parsed by the `new URL` platform builtin (not repository
code): the text after the scheme up to the first "/", "?" or "#". -/
def authorityOf (url : List Char) : List Char :=
  (if url.take 7 = "http://".toList then url.drop 7 else url.drop 8).takeWhile
    (fun c => !(c == '/' || c == '?' || c == '#'))

/-- Host-and-port part of the authority: credentials up to the last "@" are
dropped. -/
def hostportOf (url : List Char) : List Char :=
  (authorityOf url).foldl (fun acc c => if c = '@' then [] else acc ++ [c]) []

/-- ASCII lowercasing applied by the URL builtin to the hostname (domain
names are case-normalized): uppercase ASCII letters map to the corresponding
lowercase letter, every other character is unchanged.  (The builtin also
punycodes non-ASCII labels; no claim exercises non-ASCII input.) -/
def asciiLower (c : Char) : Char :=
  if 65 ≤ c.toNat ∧ c.toNat ≤ 90 then Char.ofNat (c.toNat + 32) else c

/-- Raw (not yet case-normalized) host: a host beginning with "[" is a
bracketed IPv6 literal running through its closing "]" (the builtin throws
when the bracket is unclosed, modelled as `none`); otherwise the host ends at
the first ":" (the port follows it).  The builtin additionally validates the
address inside brackets and what follows the closing bracket; no claim
exercises such inputs. -/
def rawHostOf (url : List Char) : Option (List Char) :=
  let hp := hostportOf url
  if hp.take 1 = "[".toList then
    if hp.contains ']' then some (hp.takeWhile (fun c => c != ']') ++ "]".toList)
    else none
  else some (hp.takeWhile (fun c => c != ':'))

/-- The hostname as `new URL(...).hostname` reports it: the raw host,
lowercased. -/
def hostOf (url : List Char) : Option (List Char) :=
  (rawHostOf url).map (fun host => host.map asciiLower)

/-- `new URL` throws on an empty host, modelled as `none`. -/
def urlHostname (url : List Char) : Option (List Char) :=
  match hostOf url with
  | none => none
  | some host => if host = [] then none else some host

/-- extractMainDomain (server.js lines 21–42, part_000 lines 17–38): repair
the scheme, read the URL's hostname, and strip one leading "www.". -/
def extractMainDomain (inputUrl : List Char) : Option (List Char) :=
  match urlHostname (withScheme inputUrl) with
  | none => none
  | some hostname =>
    if hostname.take 4 = "www.".toList then some (hostname.drop 4) else some hostname

theorem mem_foldl_userinfo (l : List Char) :
    ∀ (acc : List Char) (c : Char),
      c ∈ l.foldl (fun acc c => if c = '@' then [] else acc ++ [c]) acc → c ∈ acc ∨ c ∈ l := by
  induction l with
  | nil => intro acc c h; exact Or.inl h
  | cons x xs ih =>
    intro acc c h
    simp only [List.foldl_cons] at h
    by_cases hx : x = '@'
    · rw [if_pos hx] at h
      rcases ih [] c h with h' | h'
      · exact absurd h' (List.not_mem_nil c)
      · exact Or.inr (List.mem_cons_of_mem x h')
    · rw [if_neg hx] at h
      rcases ih (acc ++ [x]) c h with h' | h'
      · rcases List.mem_append.mp h' with h'' | h''
        · exact Or.inl h''
        · have hcx : c = x := List.mem_singleton.mp h''
          exact Or.inr (by rw [hcx]; exact List.mem_cons_self x xs)
      · exact Or.inr (List.mem_cons_of_mem x h')

theorem asciiLower_eq_special (c x : Char) (hx : x.toNat < 97) (h : asciiLower c = x) :
    c = x := by
  unfold asciiLower at h
  by_cases hc : 65 ≤ c.toNat ∧ c.toNat ≤ 90
  · rw [if_pos hc] at h
    have hv : (c.toNat + 32).isValidChar := by
      left
      omega
    have ht := congrArg Char.toNat h
    rw [Char.ofNat, dif_pos hv] at ht
    simp only [Char.ofNatAux, Char.toNat, UInt32.toNat, BitVec.toNat_ofNatLt] at ht hc hx
    omega
  · rw [if_neg hc] at h
    exact h

theorem mem_authorityOf (url : List Char) (c : Char) (hc : c ∈ authorityOf url) :
    c ≠ '/' ∧ c ≠ '?' ∧ c ≠ '#' := by
  unfold authorityOf at hc
  have hpred := List.mem_takeWhile_imp hc
  simp only [Bool.not_eq_true', Bool.or_eq_false_iff, beq_eq_false_iff_ne] at hpred
  exact ⟨hpred.1.1, hpred.1.2, hpred.2⟩

theorem mem_hostportOf (url : List Char) (c : Char) (hc : c ∈ hostportOf url) :
    c ∈ authorityOf url := by
  unfold hostportOf at hc
  rcases mem_foldl_userinfo (authorityOf url) [] c hc with h' | h'
  · exact absurd h' (List.not_mem_nil c)
  · exact h'

theorem rawHostOf_cases (url raw : List Char) (h : rawHostOf url = some raw) :
    (raw = (hostportOf url).takeWhile (fun c => c != ']') ++ "]".toList ∧
      (hostportOf url).take 1 = "[".toList) ∨
    (raw = (hostportOf url).takeWhile (fun c => c != ':') ∧
      (hostportOf url).take 1 ≠ "[".toList) := by
  unfold rawHostOf at h
  dsimp only at h
  split at h
  next hb =>
    split at h
    next => exact Or.inl ⟨(Option.some.inj h).symm, hb⟩
    next => exact Option.noConfusion h
  next hb => exact Or.inr ⟨(Option.some.inj h).symm, hb⟩

theorem mem_rawHost (url raw : List Char) (h : rawHostOf url = some raw) (c : Char)
    (hc : c ∈ raw) : c = ']' ∨ c ∈ authorityOf url := by
  rcases rawHostOf_cases url raw h with ⟨hhost, _⟩ | ⟨hhost, _⟩
  · rw [hhost] at hc
    rcases List.mem_append.mp hc with h1 | h1
    · exact Or.inr (mem_hostportOf url c ((List.takeWhile_sublist _).subset h1))
    · exact Or.inl (List.mem_singleton.mp h1)
  · rw [hhost] at hc
    exact Or.inr (mem_hostportOf url c ((List.takeWhile_sublist _).subset hc))

theorem hostOf_mem (url host : List Char) (h : hostOf url = some host) (c : Char)
    (hc : c ∈ host) : c ≠ '/' ∧ c ≠ '?' ∧ c ≠ '#' := by
  unfold hostOf at h
  rcases Option.map_eq_some'.mp h with ⟨raw, hraw, hmap⟩
  rw [← hmap] at hc
  rcases List.mem_map.mp hc with ⟨c', hc', hlow⟩
  refine ⟨?_, ?_, ?_⟩ <;> intro hceq
  · rcases mem_rawHost url raw hraw c' hc' with h1 | h1
    · rw [h1, hceq] at hlow
      exact absurd (asciiLower_eq_special ']' '/' (by decide) hlow) (by decide)
    · rw [hceq] at hlow
      rw [asciiLower_eq_special c' '/' (by decide) hlow] at h1
      exact absurd rfl (mem_authorityOf url '/' h1).1
  · rcases mem_rawHost url raw hraw c' hc' with h1 | h1
    · rw [h1, hceq] at hlow
      exact absurd (asciiLower_eq_special ']' '?' (by decide) hlow) (by decide)
    · rw [hceq] at hlow
      rw [asciiLower_eq_special c' '?' (by decide) hlow] at h1
      exact absurd rfl (mem_authorityOf url '?' h1).2.1
  · rcases mem_rawHost url raw hraw c' hc' with h1 | h1
    · rw [h1, hceq] at hlow
      exact absurd (asciiLower_eq_special ']' '#' (by decide) hlow) (by decide)
    · rw [hceq] at hlow
      rw [asciiLower_eq_special c' '#' (by decide) hlow] at h1
      exact absurd rfl (mem_authorityOf url '#' h1).2.2

theorem hostOf_colon (url host : List Char) (h : hostOf url = some host)
    (hb : host.take 1 ≠ "[".toList) : ':' ∉ host := by
  unfold hostOf at h
  rcases Option.map_eq_some'.mp h with ⟨raw, hraw, hmap⟩
  intro hcol
  rw [← hmap] at hcol hb
  rcases List.mem_map.mp hcol with ⟨c', hc', hlow⟩
  have hc'' : c' = ':' := asciiLower_eq_special c' ':' (by decide) hlow
  subst hc''
  rcases rawHostOf_cases url raw hraw with ⟨hhost, hbr⟩ | ⟨hhost, _⟩
  · apply hb
    rw [hhost]
    obtain ⟨t, ht⟩ : ∃ t, hostportOf url = '[' :: t := by
      cases hhp : hostportOf url with
      | nil => rw [hhp] at hbr; exact absurd hbr (by decide)
      | cons a t =>
        rw [hhp] at hbr
        simp only [List.take_succ_cons, List.take_zero] at hbr
        have ha : a = '[' := by
          have := congrArg (fun l => List.headD l ' ') hbr
          simpa using this
        exact ⟨t, by rw [ha]⟩
    rw [ht, List.takeWhile_cons_of_pos (by decide), List.cons_append, List.map_cons,
        show asciiLower '[' = '[' from by decide]
    rfl
  · rw [hhost] at hc'
    have hh := List.mem_takeWhile_imp hc'
    exact absurd hh (by decide)

theorem urlHostname_some (url host : List Char) (h : urlHostname url = some host) :
    hostOf url = some host := by
  unfold urlHostname at h
  cases hh : hostOf url with
  | none => rw [hh] at h; exact Option.noConfusion h
  | some h' =>
    rw [hh] at h
    dsimp only at h
    by_cases h0 : h' = []
    · rw [if_pos h0] at h; exact Option.noConfusion h
    · rw [if_neg h0] at h; exact h

theorem extractMainDomain_mem (inputUrl d : List Char) (h : extractMainDomain inputUrl = some d)
    (c : Char) (hc : c ∈ d) : c ≠ '/' ∧ c ≠ '?' ∧ c ≠ '#' := by
  unfold extractMainDomain at h
  cases hu : urlHostname (withScheme inputUrl) with
  | none => rw [hu] at h; exact Option.noConfusion h
  | some hostname =>
    rw [hu] at h
    dsimp only at h
    have hh : hostOf (withScheme inputUrl) = some hostname := urlHostname_some _ _ hu
    by_cases hw : hostname.take 4 = "www.".toList
    · rw [if_pos hw] at h
      have hd : hostname.drop 4 = d := Option.some.inj h
      rw [← hd] at hc
      exact hostOf_mem _ _ hh c (List.drop_subset 4 hostname hc)
    · rw [if_neg hw] at h
      have hd : hostname = d := Option.some.inj h
      rw [← hd] at hc
      exact hostOf_mem _ _ hh c hc

theorem extractMainDomain_colon (inputUrl d : List Char)
    (h : extractMainDomain inputUrl = some d) (hb : d.take 1 ≠ "[".toList) : ':' ∉ d := by
  unfold extractMainDomain at h
  cases hu : urlHostname (withScheme inputUrl) with
  | none => rw [hu] at h; exact Option.noConfusion h
  | some hostname =>
    rw [hu] at h
    dsimp only at h
    have hh : hostOf (withScheme inputUrl) = some hostname := urlHostname_some _ _ hu
    by_cases hw : hostname.take 4 = "www.".toList
    · rw [if_pos hw] at h
      have hd : hostname.drop 4 = d := Option.some.inj h
      have hb' : hostname.take 1 ≠ "[".toList := by
        intro hcon
        have h1 : (hostname.take 4).take 1 = hostname.take 1 := by
          rw [List.take_take]
          norm_num
        rw [hw, hcon] at h1
        exact absurd h1 (by decide)
      intro hcol
      exact hostOf_colon _ _ hh hb' (List.drop_subset 4 hostname (hd ▸ hcol))
    · rw [if_neg hw] at h
      have hd : hostname = d := Option.some.inj h
      rw [← hd] at hb
      intro hcol
      exact hostOf_colon _ _ hh hb (hd ▸ hcol)

theorem extractMainDomain_www (inputUrl d : List Char) (h : extractMainDomain inputUrl = some d) :
    d.take 4 = "www.".toList ↔
      ∃ hostname, urlHostname (withScheme inputUrl) = some hostname ∧
        hostname.take 8 = "www.www.".toList := by
  unfold extractMainDomain at h
  cases hu : urlHostname (withScheme inputUrl) with
  | none => rw [hu] at h; exact Option.noConfusion h
  | some hostname =>
    rw [hu] at h
    dsimp only at h
    have hsplit : hostname.take 8 = hostname.take 4 ++ (hostname.drop 4).take 4 :=
      List.take_add hostname 4 4
    by_cases hw : hostname.take 4 = "www.".toList
    · rw [if_pos hw] at h
      have hd : hostname.drop 4 = d := Option.some.inj h
      constructor
      · intro h4
        refine ⟨hostname, rfl, ?_⟩
        rw [hsplit, hw, hd, h4]
        rfl
      · rintro ⟨h', hu', h8⟩
        have hh' : h' = hostname := (Option.some.inj hu').symm
        rw [hh'] at h8
        rw [hsplit, hw] at h8
        have h44 : (hostname.drop 4).take 4 = "www.".toList :=
          List.append_cancel_left (h8.trans (by rfl))
        rw [hd] at h44
        exact h44
    · rw [if_neg hw] at h
      have hd : hostname = d := Option.some.inj h
      constructor
      · intro h4
        exact absurd (hd ▸ h4) hw
      · rintro ⟨h', hu', h8⟩
        have hh' : h' = hostname := (Option.some.inj hu').symm
        rw [hh'] at h8
        have h4 : hostname.take 4 = "www.".toList := by
          have := congrArg (List.take 4) h8
          rw [List.take_take] at this
          simpa using this
        exact absurd h4 hw

/-- Client-input rejections of the /check-clone handler: missing/empty
suspect_url (server.js 108–111) and unparseable URL (114–117). -/
inductive InputError
  | missingUrl
  | invalidFormat
deriving DecidableEq

/-- Model of the matching_accuracy string: `verified` is the literal "100%"
of the exact-match fast path (server.js 128, part_000 136); `fixed2 q` is the
template string of highestSimilarity.toFixed(2) ++ "%" (server.js 150,
part_000 157). -/
inductive Accuracy
  | verified
  | fixed2 (q : ℚ)
deriving DecidableEq

/-- Model of the whoisData field of the verdict: the two fixed skip messages
(server.js 130 and 144) or the text resolved by the WHOIS lookup. -/
inductive WhoisField
  | skippedVerified
  | skippedLowSimilarity
  | looked (data : List Char)
deriving DecidableEq

/-- The JSON verdict of the /check-clone handler (server.js 146–153,
part_000 153–160). -/
structure Verdict where
  suspect_url : List Char
  extracted_domain : List Char
  best_match_domain : Option (List Char)
  matching_accuracy : Accuracy
  isClone : Bool
  whoisData : WhoisField
deriving DecidableEq

/-- Outcome of one invocation of the external whois.lookup library call: the
callback fires with an error, or with data (possibly empty), or the call
itself throws synchronously. -/
inductive WhoisOutcome
  | err
  | ok (data : List Char)
  | exn
deriving DecidableEq

/-- Message resolved by getCachedWhoisData for a given external outcome
(server.js 82–97): error → "WHOIS lookup failed.", falsy data →
"No WHOIS data found.", synchronous throw → "WHOIS data unavailable.". -/
def whoisMessageServer : WhoisOutcome → List Char
  | .err => "WHOIS lookup failed.".toList
  | .ok d => if d = [] then "No WHOIS data found.".toList else d
  | .exn => "WHOIS data unavailable.".toList

/-- Message resolved by getWhoisData for a given external outcome (part_000
74–84). -/
def whoisMessagePart000 : WhoisOutcome → List Char
  | .err => "WHOIS data unavailable due to server error.".toList
  | .ok d => if d = [] then "No WHOIS data found.".toList else d
  | .exn => "WHOIS data unavailable.".toList

/-- Association-list model of the Map whoisCache (server.js 18): first
binding for a key wins, so prepending models Map.set of an absent key. -/
def cacheFind (d : List Char) : List (List Char × List Char) → Option (List Char)
  | [] => none
  | (k, v) :: rest => if k = d then some v else cacheFind d rest

/-- getCachedWhoisData (server.js 74–100): a cached domain returns its stored
text; otherwise the external lookup runs (its outcome is the `ext` argument)
and the resolved message is stored.  Returns the resolved text, the updated
cache, and whether whois.lookup was called. -/
def getCachedWhoisData (cache : List (List Char × List Char)) (ext : WhoisOutcome)
    (domain : List Char) : List Char × List (List Char × List Char) × Bool :=
  match cacheFind domain cache with
  | some v => (v, cache, false)
  | none => (whoisMessageServer ext, (domain, whoisMessageServer ext) :: cache, true)

/-- getWhoisData (part_000 70–86): no cache — every call runs whois.lookup.
Returns the resolved text and whether whois.lookup was called (always). -/
def getWhoisData (ext : WhoisOutcome) (domain : List Char) : List Char × Bool :=
  (whoisMessagePart000 ext, true)

/-- One iteration of the best-match loop (server.js 136–140, part_000
144–148): update bestMatchDomain and highestSimilarity when the current
stored domain scores strictly higher. -/
def bestStep (sim : List Char → List Char → ℚ) (s : List Char)
    (acc : Option (List Char) × ℚ) (storedDomain : List Char) : Option (List Char) × ℚ :=
  let similarity := sim s storedDomain
  if similarity > acc.2 then (some storedDomain, similarity) else acc

/-- The best-match loop shared by both handlers (server.js 135–141, part_000
143–149): fold over the stored domains tracking bestMatchDomain (initially
null) and highestSimilarity (initially 0). -/
def bestMatch (sim : List Char → List Char → ℚ) (refs : List (List Char))
    (s : List Char) : Option (List Char) × ℚ :=
  refs.foldl (bestStep sim s) (none, 0)

/-- POST /check-clone handler of src/backend/server.js (lines 103–159).  The
similarity function (the external string-similarity library's
compareTwoStrings, scaled by 100 on line 136) is the parameter `sim`; the
text that getCachedWhoisData resolves for a domain is abstracted as `wf`.
The JS guard `if (!suspect_domain)` (line 114) rejects both the null return of
extractMainDomain and the empty string, so an empty extracted domain is a 400
invalidFormat error.  The returned Bool records whether the gated WHOIS call
on line 144 was made. -/
def checkCloneServer (sim : List Char → List Char → ℚ) (wf : List Char → List Char)
    (refs : List (List Char)) (suspect_url : Option (List Char)) :
    Except InputError (Verdict × Bool) :=
  match suspect_url with
  | none => .error .missingUrl
  | some url =>
    if url = [] then .error .missingUrl
    else
      match extractMainDomain url with
      | none => .error .invalidFormat
      | some suspect_domain =>
        if suspect_domain = [] then .error .invalidFormat
        else if suspect_domain ∈ refs then
          .ok ({ suspect_url := url, extracted_domain := suspect_domain,
                 best_match_domain := some suspect_domain,
                 matching_accuracy := .verified, isClone := false,
                 whoisData := .skippedVerified }, false)
        else
          let r := bestMatch sim refs suspect_domain
          .ok ({ suspect_url := url, extracted_domain := suspect_domain,
                 best_match_domain := r.1, matching_accuracy := .fixed2 r.2,
                 isClone := decide (r.2 > 80),
                 whoisData := if r.2 > 80 then .looked (wf suspect_domain)
                              else .skippedLowSimilarity },
               decide (r.2 > 80))

/-- POST /check-clone handler of src/unnamed/part_000 (lines 111–166): scoring
uses levenshteinDistance, and getWhoisData is awaited unconditionally (line
151).  The JS guard `if (!suspect_domain)` (line 122) rejects both the null
return of extractMainDomain and the empty string, so an empty extracted
domain is a 400 invalidFormat error.  `ext` is the outcome of that request's
whois.lookup; the returned Bool records whether whois.lookup was called. -/
def checkClonePart000 (ext : WhoisOutcome) (refs : List (List Char))
    (suspect_url : Option (List Char)) : Except InputError (Verdict × Bool) :=
  match suspect_url with
  | none => .error .missingUrl
  | some url =>
    if url = [] then .error .missingUrl
    else
      match extractMainDomain url with
      | none => .error .invalidFormat
      | some suspect_domain =>
        if suspect_domain = [] then .error .invalidFormat
        else if suspect_domain ∈ refs then
          .ok ({ suspect_url := url, extracted_domain := suspect_domain,
                 best_match_domain := some suspect_domain,
                 matching_accuracy := .verified, isClone := false,
                 whoisData := .skippedVerified }, false)
        else
          let r := bestMatch levenshteinDistance refs suspect_domain
          let w := getWhoisData ext suspect_domain
          .ok ({ suspect_url := url, extracted_domain := suspect_domain,
                 best_match_domain := r.1, matching_accuracy := .fixed2 r.2,
                 isClone := decide (r.2 > 80),
                 whoisData := .looked w.1 }, w.2)

theorem bestStep_pair (sim : List Char → List Char → ℚ) (s : List Char)
    (b : Option (List Char)) (q : ℚ) (m : List Char) :
    bestStep sim s (b, q) m = if sim s m > q then (some m, sim s m) else (b, q) := rfl

theorem bestStep_snd (sim : List Char → List Char → ℚ) (s : List Char)
    (acc : Option (List Char) × ℚ) (m : List Char) :
    (bestStep sim s acc m).2 = max acc.2 (sim s m) := by
  show (if sim s m > acc.2 then ((some m : Option (List Char)), sim s m) else acc).2 = _
  by_cases hgt : sim s m > acc.2
  · rw [if_pos hgt]; exact (max_eq_right (le_of_lt hgt)).symm
  · rw [if_neg hgt]; exact (max_eq_left (not_lt.mp hgt)).symm

theorem foldl_bestStep_snd (sim : List Char → List Char → ℚ) (s : List Char) :
    ∀ (refs : List (List Char)) (acc : Option (List Char) × ℚ),
      (List.foldl (bestStep sim s) acc refs).2 =
        List.foldl (fun h m => max h (sim s m)) acc.2 refs := by
  intro refs
  induction refs with
  | nil => intro acc; rfl
  | cons m ms ih =>
    intro acc
    simp only [List.foldl_cons]
    rw [ih, bestStep_snd]

theorem foldl_bestStep_fst_isSome (sim : List Char → List Char → ℚ) (s : List Char) :
    ∀ (refs : List (List Char)) (acc : Option (List Char) × ℚ),
      acc.1.isSome → (List.foldl (bestStep sim s) acc refs).1.isSome := by
  intro refs
  induction refs with
  | nil => intro acc h; exact h
  | cons m ms ih =>
    intro acc h
    simp only [List.foldl_cons]
    apply ih
    simp only [bestStep]
    split
    · rfl
    · exact h

theorem foldl_bestStep_const (sim : List Char → List Char → ℚ) (s : List Char) :
    ∀ (refs : List (List Char)) (acc : Option (List Char) × ℚ),
      (∀ m ∈ refs, sim s m ≤ acc.2) → List.foldl (bestStep sim s) acc refs = acc := by
  intro refs
  induction refs with
  | nil => intro acc _; rfl
  | cons m ms ih =>
    intro acc h
    simp only [List.foldl_cons]
    have hstep : bestStep sim s acc m = acc := by
      simp only [bestStep]
      rw [if_neg (not_lt.mpr (h m (List.mem_cons_self m ms)))]
    rw [hstep]
    exact ih acc (fun m' hm' => h m' (List.mem_cons_of_mem m hm'))

theorem bestMatch_fst_none_iff (sim : List Char → List Char → ℚ) (s : List Char) :
    ∀ (refs : List (List Char)) (q0 : ℚ),
      (List.foldl (bestStep sim s) (none, q0) refs).1 = none ↔ ∀ m ∈ refs, sim s m ≤ q0 := by
  intro refs
  induction refs with
  | nil => intro q0; simp
  | cons m ms ih =>
    intro q0
    simp only [List.foldl_cons, bestStep_pair]
    by_cases hgt : sim s m > q0
    · rw [if_pos hgt]
      constructor
      · intro hnone
        have hsome := foldl_bestStep_fst_isSome sim s ms (some m, sim s m) rfl
        rw [hnone] at hsome
        exact absurd hsome (by simp)
      · intro hall
        exact absurd hgt (not_lt.mpr (hall m (List.mem_cons_self m ms)))
    · rw [if_neg hgt, ih q0]
      constructor
      · intro hall m' hm'
        rcases List.mem_cons.mp hm' with rfl | hm''
        · exact not_lt.mp hgt
        · exact hall m' hm''
      · intro hall m' hm'
        exact hall m' (List.mem_cons_of_mem m hm')

theorem bestMatch_of_all_le_zero (sim : List Char → List Char → ℚ) (refs : List (List Char))
    (s : List Char) (h : ∀ m ∈ refs, sim s m ≤ 0) : bestMatch sim refs s = (none, 0) := by
  unfold bestMatch
  exact foldl_bestStep_const sim s refs (none, 0) h

theorem extractMainDomain_nil : extractMainDomain [] = none := rfl

theorem checkCloneServer_fastpath (sim : List Char → List Char → ℚ)
    (wf : List Char → List Char) (refs : List (List Char)) (url d : List Char)
    (h : extractMainDomain url = some d) (hde : d ≠ []) (hd : d ∈ refs) :
    checkCloneServer sim wf refs (some url) =
      .ok ({ suspect_url := url, extracted_domain := d, best_match_domain := some d,
             matching_accuracy := .verified, isClone := false,
             whoisData := .skippedVerified }, false) := by
  have hne : url ≠ [] := by
    rintro rfl
    rw [extractMainDomain_nil] at h
    exact Option.noConfusion h
  unfold checkCloneServer
  dsimp only
  rw [if_neg hne, h]
  dsimp only
  rw [if_neg hde, if_pos hd]

theorem checkCloneServer_scored (sim : List Char → List Char → ℚ)
    (wf : List Char → List Char) (refs : List (List Char)) (url d : List Char)
    (h : extractMainDomain url = some d) (hde : d ≠ []) (hd : d ∉ refs) :
    checkCloneServer sim wf refs (some url) =
      .ok ({ suspect_url := url, extracted_domain := d,
             best_match_domain := (bestMatch sim refs d).1,
             matching_accuracy := .fixed2 (bestMatch sim refs d).2,
             isClone := decide ((bestMatch sim refs d).2 > 80),
             whoisData := if (bestMatch sim refs d).2 > 80 then .looked (wf d)
                          else .skippedLowSimilarity },
           decide ((bestMatch sim refs d).2 > 80)) := by
  have hne : url ≠ [] := by
    rintro rfl
    rw [extractMainDomain_nil] at h
    exact Option.noConfusion h
  unfold checkCloneServer
  dsimp only
  rw [if_neg hne, h]
  dsimp only
  rw [if_neg hde, if_neg hd]

theorem checkClonePart000_fastpath (ext : WhoisOutcome) (refs : List (List Char))
    (url d : List Char) (h : extractMainDomain url = some d) (hde : d ≠ []) (hd : d ∈ refs) :
    checkClonePart000 ext refs (some url) =
      .ok ({ suspect_url := url, extracted_domain := d, best_match_domain := some d,
             matching_accuracy := .verified, isClone := false,
             whoisData := .skippedVerified }, false) := by
  have hne : url ≠ [] := by
    rintro rfl
    rw [extractMainDomain_nil] at h
    exact Option.noConfusion h
  unfold checkClonePart000
  dsimp only
  rw [if_neg hne, h]
  dsimp only
  rw [if_neg hde, if_pos hd]

theorem checkClonePart000_scored (ext : WhoisOutcome) (refs : List (List Char))
    (url d : List Char) (h : extractMainDomain url = some d) (hde : d ≠ []) (hd : d ∉ refs) :
    checkClonePart000 ext refs (some url) =
      .ok ({ suspect_url := url, extracted_domain := d,
             best_match_domain := (bestMatch levenshteinDistance refs d).1,
             matching_accuracy := .fixed2 (bestMatch levenshteinDistance refs d).2,
             isClone := decide ((bestMatch levenshteinDistance refs d).2 > 80),
             whoisData := .looked (whoisMessagePart000 ext) },
           true) := by
  have hne : url ≠ [] := by
    rintro rfl
    rw [extractMainDomain_nil] at h
    exact Option.noConfusion h
  unfold checkClonePart000
  dsimp only
  rw [if_neg hne, h]
  dsimp only
  rw [if_neg hde, if_neg hd]
  rfl

theorem checkCloneServer_emptyDomain (sim : List Char → List Char → ℚ)
    (wf : List Char → List Char) (refs : List (List Char)) (url : List Char)
    (hne : url ≠ []) (h : extractMainDomain url = some []) :
    checkCloneServer sim wf refs (some url) = .error .invalidFormat := by
  unfold checkCloneServer
  dsimp only
  rw [if_neg hne, h]
  simp

theorem checkClonePart000_emptyDomain (ext : WhoisOutcome) (refs : List (List Char))
    (url : List Char) (hne : url ≠ []) (h : extractMainDomain url = some []) :
    checkClonePart000 ext refs (some url) = .error .invalidFormat := by
  unfold checkClonePart000
  dsimp only
  rw [if_neg hne, h]
  simp

/-- Event-loop state of two overlapping calls to getCachedWhoisData for the
same uncached domain.  `cache` is the whoisCache entry for that domain,
`queries` counts invocations of the external whois.lookup, `r1`/`r2` are the
values the two callers resolve with, and `pending1`/`pending2` record an
issued lookup whose callback has not yet run. -/
structure RaceState where
  cache : Option (List Char)
  queries : Nat
  r1 : Option (List Char)
  r2 : Option (List Char)
  pending1 : Bool
  pending2 : Bool
deriving DecidableEq

def raceInit : RaceState :=
  { cache := none, queries := 0, r1 := none, r2 := none, pending1 := false, pending2 := false }

/-- Synchronous prologue of caller 1's getCachedWhoisData (server.js 75–81):
a cache hit resolves immediately; a miss calls whois.lookup.  In Node this
runs to completion before any callback can fire. -/
def checkStep1 (s : RaceState) : RaceState :=
  match s.cache with
  | some v => { s with r1 := some v }
  | none => { s with queries := s.queries + 1, pending1 := true }

/-- Synchronous prologue of caller 2's getCachedWhoisData (server.js 75–81). -/
def checkStep2 (s : RaceState) : RaceState :=
  match s.cache with
  | some v => { s with r2 := some v }
  | none => { s with queries := s.queries + 1, pending2 := true }

/-- whois.lookup callback of caller 1 (server.js 81–92): stores its result
text `v` in the cache and resolves the caller's promise with it. -/
def completeStep1 (v : List Char) (s : RaceState) : RaceState :=
  if s.pending1 then { s with cache := some v, r1 := some v, pending1 := false } else s

/-- whois.lookup callback of caller 2 (server.js 81–92). -/
def completeStep2 (v : List Char) (s : RaceState) : RaceState :=
  if s.pending2 then { s with cache := some v, r2 := some v, pending2 := false } else s

theorem bestMatch_singleton (sim : List Char → List Char → ℚ) (m s : List Char) :
    bestMatch sim [m] s = if sim s m > 0 then (some m, sim s m) else (none, 0) := rfl

theorem levenshteinDistance_abd_abc :
    levenshteinDistance "abd".toList "abc".toList = 200 / 3 := by
  rw [levenshteinDistance_formula _ _ (by decide) (by decide),
      show lev "abd".toList "abc".toList = 1 from by decide,
      show "abd".toList.length = 3 from by decide,
      show "abc".toList.length = 3 from by decide]
  norm_num

theorem levenshteinDistance_abc_zz :
    levenshteinDistance "ab.c".toList "zzzzzzzzzz".toList = 0 := by
  rw [levenshteinDistance_formula _ _ (by decide) (by decide),
      show lev "ab.c".toList "zzzzzzzzzz".toList = 10 from by decide,
      show "ab.c".toList.length = 4 from by decide,
      show "zzzzzzzzzz".toList.length = 10 from by decide]
  norm_num

theorem bestMatch_zz_eval :
    bestMatch levenshteinDistance ["zzzzzzzzzz".toList] "ab.c".toList = (none, 0) := by
  rw [bestMatch_singleton, levenshteinDistance_abc_zz, if_neg (by norm_num)]

/-- C1 (counterexample): the claim fails at the reachable suspect domain ""
(produced by extractMainDomain from the input "www."), which is not in the
reference set containing "abc": the loop scores it 3 against "abc" (the raw
length returned by levenshteinDistance's empty guard), while the normalized
Levenshtein formula (1 - distance / max(len, len)) * 100 gives 0. -/
theorem C1_counterexample :
    extractMainDomain "www.".toList = some [] ∧
    ([] : List Char) ∉ ["abc".toList] ∧
    bestMatch levenshteinDistance ["abc".toList] [] = (some "abc".toList, 3) ∧
    (1 - (lev [] "abc".toList : ℚ) /
        ((max (List.length ([] : List Char)) "abc".toList.length : ℕ) : ℚ)) * 100 = 0 ∧
    (3 : ℚ) ≠ 0 := by
  refine ⟨by decide, by decide, ?_, ?_, by norm_num⟩
  · rw [bestMatch_singleton, show levenshteinDistance [] "abc".toList = 3 from by decide,
        if_pos (by norm_num)]
  · rw [show lev [] "abc".toList = 3 from by decide,
        show "abc".toList.length = 3 from by decide]
    norm_num

/-- C1 (amended): for every suspect domain and reference member that are both
non-empty, the score computed by the loop equals the normalized Levenshtein
formula (1 - distance / max(len(suspect), len(member))) * 100, and the
highest similarity is the running maximum of the score against every member
of the reference set; when either string is empty the code instead returns
the other string's raw length. -/
theorem C1_amended (refs : List (List Char)) (s : List Char) (hs : s ≠ [])
    (hm : ∀ m ∈ refs, m ≠ []) :
    (∀ m ∈ refs, levenshteinDistance s m =
        (1 - (lev s m : ℚ) / ((max s.length m.length : ℕ) : ℚ)) * 100) ∧
    (bestMatch levenshteinDistance refs s).2 =
      refs.foldl (fun h m => max h (levenshteinDistance s m)) 0 := by
  constructor
  · intro m hm'
    exact levenshteinDistance_formula s m hs (hm m hm')
  · unfold bestMatch
    rw [foldl_bestStep_snd]

/-- C1 (witness): the amended claim at suspect "abd" and reference set
containing "abc". -/
theorem C1_amended_witness :
    (∀ m ∈ ["abc".toList], levenshteinDistance "abd".toList m =
        (1 - (lev "abd".toList m : ℚ) / ((max "abd".toList.length m.length : ℕ) : ℚ)) * 100) ∧
    (bestMatch levenshteinDistance ["abc".toList] "abd".toList).2 =
      ["abc".toList].foldl (fun h m => max h (levenshteinDistance "abd".toList m)) 0 :=
  C1_amended ["abc".toList] "abd".toList (by decide) (by decide)

/-- C2 (counterexample): in the part_000 handler the WHOIS lookup runs even
for a request whose highest similarity score is 0 (at most 80): for suspect
"ab.c" against reference set containing "zzzzzzzzzz", the handler returns the
looked-up WHOIS text and the lookup-performed flag is true. -/
theorem C2_counterexample :
    checkClonePart000 (.ok "REGDATA".toList) ["zzzzzzzzzz".toList] (some "ab.c".toList) =
      .ok ({ suspect_url := "ab.c".toList, extracted_domain := "ab.c".toList,
             best_match_domain := none, matching_accuracy := .fixed2 0, isClone := false,
             whoisData := .looked "REGDATA".toList }, true) ∧
    ¬ ((0 : ℚ) > 80) := by
  constructor
  · rw [checkClonePart000_scored _ _ _ "ab.c".toList (by decide) (by decide) (by decide),
        bestMatch_zz_eval]
    rfl
  · norm_num

/-- C2 (amended): in the backend/server.js handler, for every accepted
request (non-empty normalized domain — an empty one is rejected with a 400
before any lookup) whose domain is not in the reference set, the WHOIS
lookup is performed if and only if the highest similarity score strictly
exceeds 80, and a below-threshold request issues no lookup and carries the
fixed low-similarity placeholder; the part_000 variant instead performs the
lookup unconditionally. -/
theorem C2_amended (sim : List Char → List Char → ℚ) (wf : List Char → List Char)
    (refs : List (List Char)) (url d : List Char)
    (h : extractMainDomain url = some d) (hde : d ≠ []) (hd : d ∉ refs) :
    ∃ v : Verdict, ∃ b : Bool,
      checkCloneServer sim wf refs (some url) = .ok (v, b) ∧
      (b = true ↔ (bestMatch sim refs d).2 > 80) ∧
      (¬ (bestMatch sim refs d).2 > 80 → b = false ∧ v.whoisData = .skippedLowSimilarity) ∧
      ((bestMatch sim refs d).2 > 80 → v.whoisData = .looked (wf d)) := by
  refine ⟨_, decide ((bestMatch sim refs d).2 > 80),
    checkCloneServer_scored sim wf refs url d h hde hd, by simp, ?_, ?_⟩
  · intro hng
    exact ⟨decide_eq_false hng, if_neg hng⟩
  · intro hgt
    exact if_pos hgt

/-- C2 (witness): the amended claim at suspect "ab.c" against reference set
containing "zzzzzzzzzz". -/
theorem C2_amended_witness :
    ∃ v : Verdict, ∃ b : Bool,
      checkCloneServer levenshteinDistance (fun _ => "W".toList) ["zzzzzzzzzz".toList]
          (some "ab.c".toList) = .ok (v, b) ∧
      (b = true ↔
        (bestMatch levenshteinDistance ["zzzzzzzzzz".toList] "ab.c".toList).2 > 80) ∧
      (¬ (bestMatch levenshteinDistance ["zzzzzzzzzz".toList] "ab.c".toList).2 > 80 →
        b = false ∧ v.whoisData = .skippedLowSimilarity) ∧
      ((bestMatch levenshteinDistance ["zzzzzzzzzz".toList] "ab.c".toList).2 > 80 →
        v.whoisData = .looked ((fun _ => "W".toList) "ab.c".toList)) :=
  C2_amended levenshteinDistance (fun _ => "W".toList) ["zzzzzzzzzz".toList]
    "ab.c".toList "ab.c".toList (by decide) (by decide) (by decide)

/-- C3: part_000's levenshteinDistance violates the required empty-string
conventions: empty vs empty yields 0 (the claim requires 100), empty vs
"abc" yields 3 (the claim requires 0), and empty vs a 101-character string
yields 101, outside the required [0, 100] range.  The guards on lines 90–91
return the other argument's raw length instead of a percentage. -/
theorem C3_empty_input_eval :
    levenshteinDistance [] [] = 0 ∧
    levenshteinDistance [] "abc".toList = 3 ∧
    levenshteinDistance [] (List.replicate 101 'a') = 101 ∧
    ¬ ((101 : ℚ) ≤ 100) ∧ (0 : ℚ) ≠ 100 ∧ (3 : ℚ) ≠ 0 := by
  refine ⟨by decide, by decide, ?_, by norm_num, by norm_num, by norm_num⟩
  simp [levenshteinDistance]

/-- C4: in both handlers (server.js 151, part_000 158), for every accepted
request (non-empty normalized domain — an empty one is rejected with a 400
and produces no verdict) outside the reference set, the verdict's isClone
field is true exactly when the highest similarity score strictly exceeds 80,
and a request whose highest score is exactly 80 yields isClone = false. -/
theorem C4_isClone_threshold (sim : List Char → List Char → ℚ) (wf : List Char → List Char)
    (ext : WhoisOutcome) (refs : List (List Char)) (url d : List Char)
    (h : extractMainDomain url = some d) (hde : d ≠ []) (hd : d ∉ refs) :
    (∃ v : Verdict, ∃ b : Bool, checkCloneServer sim wf refs (some url) = .ok (v, b) ∧
      (v.isClone = true ↔ (bestMatch sim refs d).2 > 80) ∧
      ((bestMatch sim refs d).2 = 80 → v.isClone = false)) ∧
    (∃ v : Verdict, ∃ b : Bool, checkClonePart000 ext refs (some url) = .ok (v, b) ∧
      (v.isClone = true ↔ (bestMatch levenshteinDistance refs d).2 > 80) ∧
      ((bestMatch levenshteinDistance refs d).2 = 80 → v.isClone = false)) := by
  constructor
  · refine ⟨_, _, checkCloneServer_scored sim wf refs url d h hde hd, ?_, ?_⟩
    · show decide ((bestMatch sim refs d).2 > 80) = true ↔ _
      simp
    · intro h80
      show decide ((bestMatch sim refs d).2 > 80) = false
      exact decide_eq_false (by rw [h80]; exact lt_irrefl (80 : ℚ))
  · refine ⟨_, _, checkClonePart000_scored ext refs url d h hde hd, ?_, ?_⟩
    · show decide ((bestMatch levenshteinDistance refs d).2 > 80) = true ↔ _
      simp
    · intro h80
      show decide ((bestMatch levenshteinDistance refs d).2 > 80) = false
      exact decide_eq_false (by rw [h80]; exact lt_irrefl (80 : ℚ))

/-- C4 (witness): suspect "abcdx" against reference set containing "abcde",
whose highest score is exactly 80 — so isClone is false there. -/
theorem C4_isClone_threshold_witness :
    ((∃ v : Verdict, ∃ b : Bool,
        checkCloneServer levenshteinDistance (fun _ => []) ["abcde".toList]
            (some "abcdx".toList) = .ok (v, b) ∧
        (v.isClone = true ↔
          (bestMatch levenshteinDistance ["abcde".toList] "abcdx".toList).2 > 80) ∧
        ((bestMatch levenshteinDistance ["abcde".toList] "abcdx".toList).2 = 80 →
          v.isClone = false)) ∧
     (∃ v : Verdict, ∃ b : Bool,
        checkClonePart000 .err ["abcde".toList] (some "abcdx".toList) = .ok (v, b) ∧
        (v.isClone = true ↔
          (bestMatch levenshteinDistance ["abcde".toList] "abcdx".toList).2 > 80) ∧
        ((bestMatch levenshteinDistance ["abcde".toList] "abcdx".toList).2 = 80 →
          v.isClone = false))) ∧
    (bestMatch levenshteinDistance ["abcde".toList] "abcdx".toList).2 = 80 := by
  constructor
  · exact C4_isClone_threshold levenshteinDistance (fun _ => []) .err ["abcde".toList]
      "abcdx".toList "abcdx".toList (by decide) (by decide) (by decide)
  · rw [bestMatch_singleton,
        show levenshteinDistance "abcdx".toList "abcde".toList = 80 from by
          rw [levenshteinDistance_formula _ _ (by decide) (by decide),
              show lev "abcdx".toList "abcde".toList = 1 from by decide,
              show "abcdx".toList.length = 5 from by decide,
              show "abcde".toList.length = 5 from by decide]
          norm_num,
        if_pos (by norm_num)]

/-- C5: for a suspect URL whose normalized domain is non-empty (an empty
domain is rejected with a 400 before the membership test) and exactly an
element of the reference set, both handlers return isClone = false, matching accuracy
the literal "100%", and best match the domain itself; the verdict does not
depend on the similarity function or on any WHOIS result (the scoring loop
is bypassed), and the lookup-performed flag is false with the
skipped-for-verified message. -/
theorem C5_fastpath (sim : List Char → List Char → ℚ) (wf : List Char → List Char)
    (ext : WhoisOutcome) (refs : List (List Char)) (url d : List Char)
    (h : extractMainDomain url = some d) (hde : d ≠ []) (hd : d ∈ refs) :
    checkCloneServer sim wf refs (some url) =
      .ok ({ suspect_url := url, extracted_domain := d, best_match_domain := some d,
             matching_accuracy := .verified, isClone := false,
             whoisData := .skippedVerified }, false) ∧
    checkClonePart000 ext refs (some url) =
      .ok ({ suspect_url := url, extracted_domain := d, best_match_domain := some d,
             matching_accuracy := .verified, isClone := false,
             whoisData := .skippedVerified }, false) :=
  ⟨checkCloneServer_fastpath sim wf refs url d h hde hd,
   checkClonePart000_fastpath ext refs url d h hde hd⟩

/-- C5 (witness): "http://example.com/path?q=1", whose normalized hostname
"example.com" is in the reference set, including a path and query suffix. -/
theorem C5_fastpath_witness :
    checkCloneServer (fun _ _ => 0) (fun _ => []) ["example.com".toList]
        (some "http://example.com/path?q=1".toList) =
      .ok ({ suspect_url := "http://example.com/path?q=1".toList,
             extracted_domain := "example.com".toList,
             best_match_domain := some "example.com".toList,
             matching_accuracy := .verified, isClone := false,
             whoisData := .skippedVerified }, false) ∧
    checkClonePart000 .err ["example.com".toList]
        (some "http://example.com/path?q=1".toList) =
      .ok ({ suspect_url := "http://example.com/path?q=1".toList,
             extracted_domain := "example.com".toList,
             best_match_domain := some "example.com".toList,
             matching_accuracy := .verified, isClone := false,
             whoisData := .skippedVerified }, false) :=
  C5_fastpath (fun _ _ => 0) (fun _ => []) .err ["example.com".toList]
    "http://example.com/path?q=1".toList "example.com".toList (by decide) (by decide)
    (by decide)

/-- C6 (counterexample): the input "www.www.example.com" normalizes
successfully, yet the resulting domain "www.example.com" still begins with
"www.": only one 4-character prefix is stripped, with no recursion, so the
claimed invariant fails for hostnames beginning "www.www.". -/
theorem C6_counterexample :
    extractMainDomain "www.www.example.com".toList = some "www.example.com".toList ∧
    ("www.example.com".toList).take 4 = "www.".toList :=
  ⟨by decide, by decide⟩

/-- C6 (amended): every successfully normalized domain contains no "/", "?"
or "#" (hence no scheme, path, query or fragment); unless the host is a
bracketed IPv6 literal (beginning "["), it contains no ":" (hence no scheme
and no port); and it begins with "www." exactly when the parsed hostname
began with "www.www." — a single "www." prefix is stripped, so the
no-leading-"www." part of the invariant holds precisely for hostnames not
starting with a repeated "www.www.". -/
theorem C6_amended (inputUrl d : List Char) (h : extractMainDomain inputUrl = some d) :
    (∀ c ∈ d, c ≠ '/' ∧ c ≠ '?' ∧ c ≠ '#') ∧
    (d.take 1 ≠ "[".toList → ':' ∉ d) ∧
    (d.take 4 = "www.".toList ↔
      ∃ hostname, urlHostname (withScheme inputUrl) = some hostname ∧
        hostname.take 8 = "www.www.".toList) :=
  ⟨fun c hc => extractMainDomain_mem inputUrl d h c hc,
   fun hb => extractMainDomain_colon inputUrl d h hb,
   extractMainDomain_www inputUrl d h⟩

/-- C6 (witness): the amended claim at "https://www.example.com:8080/a?b",
which normalizes to "example.com". -/
theorem C6_amended_witness :
    (∀ c ∈ "example.com".toList, c ≠ '/' ∧ c ≠ '?' ∧ c ≠ '#') ∧
    ("example.com".toList.take 1 ≠ "[".toList → ':' ∉ "example.com".toList) ∧
    ("example.com".toList.take 4 = "www.".toList ↔
      ∃ hostname,
        urlHostname (withScheme "https://www.example.com:8080/a?b".toList) = some hostname ∧
        hostname.take 8 = "www.www.".toList) :=
  C6_amended "https://www.example.com:8080/a?b".toList "example.com".toList (by decide)

/-- C7 (counterexample): part_000's getWhoisData — one of the two lookup
functions the claim covers — does not cache: every call invokes whois.lookup
again (query flag true on both calls), and a domain whose first lookup fails
is not bound to that failure: a later call with a successful outcome returns
different data. -/
theorem C7_counterexample :
    (getWhoisData .err "clone.com".toList).2 = true ∧
    (getWhoisData (.ok "NEW".toList) "clone.com".toList).2 = true ∧
    (getWhoisData .err "clone.com".toList).1 ≠
      (getWhoisData (.ok "NEW".toList) "clone.com".toList).1 :=
  ⟨rfl, rfl, by decide⟩

/-- C7 (amended): the cached lookup of backend/server.js (getCachedWhoisData)
has the claimed behaviour: every outcome resolves to a message (no exception
escapes), the outcome is stored keyed by the domain, every subsequent call
with that domain returns the stored record verbatim without querying —
whatever the later external outcome would be — a cache hit performs no
external query, and a failed first lookup caches the fixed failure message;
the part_000 variant (getWhoisData) instead re-queries on every call. -/
theorem C7_amended (cache : List (List Char × List Char)) (ext ext' : WhoisOutcome)
    (d : List Char) :
    cacheFind d (getCachedWhoisData cache ext d).2.1 =
      some (getCachedWhoisData cache ext d).1 ∧
    getCachedWhoisData (getCachedWhoisData cache ext d).2.1 ext' d =
      ((getCachedWhoisData cache ext d).1, (getCachedWhoisData cache ext d).2.1, false) ∧
    (∀ v, cacheFind d cache = some v → getCachedWhoisData cache ext d = (v, cache, false)) ∧
    (cacheFind d cache = none → ext = .err →
      (getCachedWhoisData cache ext d).1 = "WHOIS lookup failed.".toList) := by
  cases hc : cacheFind d cache with
  | some v =>
    have h1 : getCachedWhoisData cache ext d = (v, cache, false) := by
      simp [getCachedWhoisData, hc]
    refine ⟨?_, ?_, ?_, ?_⟩
    · rw [h1]; exact hc
    · rw [h1]; simp [getCachedWhoisData, hc]
    · intro v' hv'
      injection hv' with he
      rw [← he, h1]
    · intro hn _
      exact Option.noConfusion hn
  | none =>
    have h1 : getCachedWhoisData cache ext d =
        (whoisMessageServer ext, (d, whoisMessageServer ext) :: cache, true) := by
      simp [getCachedWhoisData, hc]
    have hfind : cacheFind d ((d, whoisMessageServer ext) :: cache) =
        some (whoisMessageServer ext) := by
      simp [cacheFind]
    refine ⟨?_, ?_, ?_, ?_⟩
    · rw [h1]; exact hfind
    · rw [h1]; simp [getCachedWhoisData, hfind]
    · intro v' hv'
      exact Option.noConfusion hv'
    · intro _ hext
      rw [h1, hext]
      rfl

/-- C7 (witness): the amended claim at an empty cache, a failing first
outcome, and a succeeding later outcome for "example.com". -/
theorem C7_amended_witness :
    cacheFind "example.com".toList
        (getCachedWhoisData [] .err "example.com".toList).2.1 =
      some (getCachedWhoisData [] .err "example.com".toList).1 ∧
    getCachedWhoisData (getCachedWhoisData [] .err "example.com".toList).2.1
        (.ok "X".toList) "example.com".toList =
      ((getCachedWhoisData [] .err "example.com".toList).1,
       (getCachedWhoisData [] .err "example.com".toList).2.1, false) ∧
    (∀ v, cacheFind "example.com".toList [] = some v →
      getCachedWhoisData [] .err "example.com".toList = (v, [], false)) ∧
    (cacheFind "example.com".toList [] = none → WhoisOutcome.err = .err →
      (getCachedWhoisData [] .err "example.com".toList).1 =
        "WHOIS lookup failed.".toList) :=
  C7_amended [] .err (.ok "X".toList) "example.com".toList

/-- C8 (counterexample): two calls for the same uncached domain that overlap
— both run the synchronous cache check of getCachedWhoisData before either
whois callback fires — each issue their own external query, so two queries
for one domain are observed in one process lifetime, and the two callers can
resolve with different records. -/
theorem C8_counterexample :
    (completeStep2 "B".toList (completeStep1 "A".toList
        (checkStep2 (checkStep1 raceInit)))).queries = 2 ∧
    ¬ ((completeStep2 "B".toList (completeStep1 "A".toList
        (checkStep2 (checkStep1 raceInit)))).queries ≤ 1) ∧
    (completeStep2 "B".toList (completeStep1 "A".toList
        (checkStep2 (checkStep1 raceInit)))).r1 ≠
      (completeStep2 "B".toList (completeStep1 "A".toList
        (checkStep2 (checkStep1 raceInit)))).r2 :=
  ⟨rfl, by decide, by decide⟩

/-- C8 (amended): when two calls for the same uncached domain overlap, each
issues its own external query (no single-flight de-duplication) and each
caller resolves with its own callback's record; the cache converges to the
last callback's value, and any call that begins after a callback has
populated the cache issues no further query and receives the cached record. -/
theorem C8_amended (v1 v2 : List Char) :
    ((completeStep2 v2 (completeStep1 v1 (checkStep2 (checkStep1 raceInit)))).queries = 2 ∧
     (completeStep2 v2 (completeStep1 v1 (checkStep2 (checkStep1 raceInit)))).r1 = some v1 ∧
     (completeStep2 v2 (completeStep1 v1 (checkStep2 (checkStep1 raceInit)))).r2 = some v2 ∧
     (completeStep2 v2 (completeStep1 v1 (checkStep2 (checkStep1 raceInit)))).cache = some v2) ∧
    (∀ s : RaceState, ∀ v : List Char, s.cache = some v →
      (checkStep1 s).queries = s.queries ∧ (checkStep1 s).r1 = some v) := by
  constructor
  · exact ⟨rfl, rfl, rfl, rfl⟩
  · intro s v hs
    unfold checkStep1
    rw [hs]
    exact ⟨rfl, rfl⟩

/-- C8 (witness): the amended claim at the concrete callback values "A" and
"B". -/
theorem C8_amended_witness :
    ((completeStep2 "B".toList (completeStep1 "A".toList
        (checkStep2 (checkStep1 raceInit)))).queries = 2 ∧
     (completeStep2 "B".toList (completeStep1 "A".toList
        (checkStep2 (checkStep1 raceInit)))).r1 = some "A".toList ∧
     (completeStep2 "B".toList (completeStep1 "A".toList
        (checkStep2 (checkStep1 raceInit)))).r2 = some "B".toList ∧
     (completeStep2 "B".toList (completeStep1 "A".toList
        (checkStep2 (checkStep1 raceInit)))).cache = some "B".toList) ∧
    (∀ s : RaceState, ∀ v : List Char, s.cache = some v →
      (checkStep1 s).queries = s.queries ∧ (checkStep1 s).r1 = some v) :=
  C8_amended "A".toList "B".toList

/-- C9: the repository's similarity scoring function levenshteinDistance is
symmetric in its two arguments, including the empty-string guard cases. -/
theorem C9_symmetric (a b : List Char) :
    levenshteinDistance a b = levenshteinDistance b a := by
  unfold levenshteinDistance
  rcases eq_or_ne a [] with rfl | ha
  · rcases eq_or_ne b [] with rfl | hb
    · rfl
    · have hlb : b.length ≠ 0 := by simpa [List.length_eq_zero] using hb
      simp [hlb]
  · rcases eq_or_ne b [] with rfl | hb
    · have hla : a.length ≠ 0 := by simpa [List.length_eq_zero] using ha
      simp [hla]
    · have hla : a.length ≠ 0 := by simpa [List.length_eq_zero] using ha
      have hlb : b.length ≠ 0 := by simpa [List.length_eq_zero] using hb
      rw [if_neg hla, if_neg hlb, if_neg hlb, if_neg hla, lev_symm a b,
          Nat.max_comm a.length b.length]

/-- C9 (witness): symmetry at the concrete pair "abd", "abc". -/
theorem C9_symmetric_witness :
    levenshteinDistance "abd".toList "abc".toList =
      levenshteinDistance "abc".toList "abd".toList :=
  C9_symmetric "abd".toList "abc".toList

/-- C10: for an accepted request (non-empty normalized domain — an empty one
is rejected with a 400 and produces no verdict) whose suspect domain is not
in the reference set, best_match_domain is absent (null) exactly when no reference
member scores strictly above 0 — so a non-empty reference set can still
produce an absent best match — and in that case the reported highest score
is 0, isClone is false, and in the threshold-gated backend/server.js handler
the WHOIS lookup is skipped with the low-similarity placeholder; the
part_000 handler reports the same absent best match, score and verdict. -/
theorem C10_absent_best_match (sim : List Char → List Char → ℚ)
    (wf : List Char → List Char) (ext : WhoisOutcome) (refs : List (List Char))
    (url d : List Char) (h : extractMainDomain url = some d) (hde : d ≠ [])
    (hd : d ∉ refs) :
    (∃ v : Verdict, ∃ b : Bool, checkCloneServer sim wf refs (some url) = .ok (v, b) ∧
      (v.best_match_domain = none ↔ ∀ m ∈ refs, ¬ sim d m > 0) ∧
      ((∀ m ∈ refs, ¬ sim d m > 0) →
        v.matching_accuracy = .fixed2 0 ∧ v.isClone = false ∧ b = false ∧
        v.whoisData = .skippedLowSimilarity)) ∧
    (∃ v : Verdict, ∃ b : Bool, checkClonePart000 ext refs (some url) = .ok (v, b) ∧
      (v.best_match_domain = none ↔ ∀ m ∈ refs, ¬ levenshteinDistance d m > 0) ∧
      ((∀ m ∈ refs, ¬ levenshteinDistance d m > 0) →
        v.matching_accuracy = .fixed2 0 ∧ v.isClone = false)) := by
  have key : ∀ sim' : List Char → List Char → ℚ,
      ((bestMatch sim' refs d).1 = none ↔ ∀ m ∈ refs, ¬ sim' d m > 0) := by
    intro sim'
    have hiff : (bestMatch sim' refs d).1 = none ↔ ∀ m ∈ refs, sim' d m ≤ 0 :=
      bestMatch_fst_none_iff sim' d refs 0
    rw [hiff]
    constructor
    · intro hall m hm; exact not_lt.mpr (hall m hm)
    · intro hall m hm; exact not_lt.mp (hall m hm)
  constructor
  · refine ⟨_, _, checkCloneServer_scored sim wf refs url d h hde hd, key sim, ?_⟩
    intro hall
    have hz : bestMatch sim refs d = (none, 0) :=
      bestMatch_of_all_le_zero sim refs d (fun m hm => not_lt.mp (hall m hm))
    have hz2 : (bestMatch sim refs d).2 = 0 := by rw [hz]
    refine ⟨?_, ?_, ?_, ?_⟩
    · show Accuracy.fixed2 (bestMatch sim refs d).2 = Accuracy.fixed2 0
      rw [hz2]
    · show decide ((bestMatch sim refs d).2 > 80) = false
      rw [hz2]
      exact decide_eq_false (by norm_num)
    · show decide ((bestMatch sim refs d).2 > 80) = false
      rw [hz2]
      exact decide_eq_false (by norm_num)
    · show (if (bestMatch sim refs d).2 > 80 then WhoisField.looked (wf d)
            else WhoisField.skippedLowSimilarity) = WhoisField.skippedLowSimilarity
      rw [hz2]
      exact if_neg (by norm_num)
  · refine ⟨_, _, checkClonePart000_scored ext refs url d h hde hd,
      key levenshteinDistance, ?_⟩
    intro hall
    have hz : bestMatch levenshteinDistance refs d = (none, 0) :=
      bestMatch_of_all_le_zero levenshteinDistance refs d (fun m hm => not_lt.mp (hall m hm))
    have hz2 : (bestMatch levenshteinDistance refs d).2 = 0 := by rw [hz]
    refine ⟨?_, ?_⟩
    · show Accuracy.fixed2 (bestMatch levenshteinDistance refs d).2 = Accuracy.fixed2 0
      rw [hz2]
    · show decide ((bestMatch levenshteinDistance refs d).2 > 80) = false
      rw [hz2]
      exact decide_eq_false (by norm_num)

/-- C10 (witness): suspect "zz" against the non-empty reference set
containing "example.com", where the only score is exactly 0. -/
theorem C10_absent_best_match_witness :
    ((∃ v : Verdict, ∃ b : Bool,
        checkCloneServer levenshteinDistance (fun _ => []) ["example.com".toList]
            (some "zz".toList) = .ok (v, b) ∧
        (v.best_match_domain = none ↔
          ∀ m ∈ ["example.com".toList], ¬ levenshteinDistance "zz".toList m > 0) ∧
        ((∀ m ∈ ["example.com".toList], ¬ levenshteinDistance "zz".toList m > 0) →
          v.matching_accuracy = .fixed2 0 ∧ v.isClone = false ∧ b = false ∧
          v.whoisData = .skippedLowSimilarity)) ∧
     (∃ v : Verdict, ∃ b : Bool,
        checkClonePart000 .err ["example.com".toList] (some "zz".toList) = .ok (v, b) ∧
        (v.best_match_domain = none ↔
          ∀ m ∈ ["example.com".toList], ¬ levenshteinDistance "zz".toList m > 0) ∧
        ((∀ m ∈ ["example.com".toList], ¬ levenshteinDistance "zz".toList m > 0) →
          v.matching_accuracy = .fixed2 0 ∧ v.isClone = false))) ∧
    (∀ m ∈ ["example.com".toList], ¬ levenshteinDistance "zz".toList m > 0) := by
  constructor
  · exact C10_absent_best_match levenshteinDistance (fun _ => []) .err
      ["example.com".toList] "zz".toList "zz".toList (by decide) (by decide) (by decide)
  · intro m hm
    rcases List.mem_singleton.mp hm with rfl
    rw [levenshteinDistance_formula _ _ (by decide) (by decide),
        show lev "zz".toList "example.com".toList = 11 from by decide,
        show "zz".toList.length = 2 from by decide,
        show "example.com".toList.length = 11 from by decide]
    norm_num

end CloneDetect
